import Mathlib

/-!
Verification of the ModelSwitch model registry (`src/app/model_loader.py`,
`src/app/predict.py`, `src/app/admin.py`, `src/app/config.py`).

The Python code is shallowly embedded: the process-global `ModelRegistry`
becomes an explicit `RegistryState` threaded through each operation, the
on-disk backing store (a directory tree of `models/<version>/model.pkl`
files read through `os.path.exists` / `joblib.load`) becomes an immutable
`Store` value, Python dicts become association lists with dict semantics
(`dictLookup` / `dictInsert` / `dictErase`), and Python exceptions become
`Except` results tagged with the exception class that the transport layer
dispatches on (`ValueError` vs `RuntimeError`).  Wall-clock quantities
(`time.time()` durations, latencies) are opaque: load durations come from
the store as abstract numbers and reported latency is abstracted to `0`,
since no verified property depends on their values, only on whether a
duration was recorded.  Prometheus metric emission is an excluded
side-channel and is not modelled.
-/

/-- What the backing store holds for one version name: no
`models/<version>/model.pkl` file at all (`absent`), a file that
`joblib.load` fails to deserialize (`corrupt`), or a healthy artifact,
identified by an opaque number (`ok`). -/
inductive StoreEntry where
  | absent
  | corrupt
  | ok (artifact : Nat)
deriving DecidableEq

/-- A feature value as seen by `validate_features`: a finite number, or one
of the rejected shapes (NaN, +inf, -inf, a non-numeric entry). -/
inductive Value where
  | finite (q : Rat)
  | nan
  | inf
  | negInf
  | nonNumeric
deriving DecidableEq

/-- The backing store plus the opaque behaviour of the artifacts it holds:
`dirs` is the directory listing of `models_dir` (each name paired with what
is at `models/<name>/model.pkl`), `dur` gives the wall-clock duration a
successful load of a version takes (abstract), and `infer` is the
`model.predict` entry point of the artifact with a given id, which either
returns a raw output sequence or raises. -/
structure Store where
  dirs : List (String × StoreEntry)
  dur : String → Nat
  infer : Nat → List Value → Except Unit (List Rat)

/-- Lookup in a Python dict represented as an association list. -/
def dictLookup {α : Type} (d : List (String × α)) (k : String) : Option α :=
  match d with
  | [] => none
  | (k', v') :: rest => if k' = k then some v' else dictLookup rest k

/-- `d[k] = v` on a Python dict: overwrite the existing key or append. -/
def dictInsert {α : Type} (d : List (String × α)) (k : String) (v : α) :
    List (String × α) :=
  match d with
  | [] => [(k, v)]
  | (k', v') :: rest =>
      if k' = k then (k, v) :: rest else (k', v') :: dictInsert rest k v

/-- `d.pop(k, None)` on a Python dict: drop the key if present. -/
def dictErase {α : Type} (d : List (String × α)) (k : String) :
    List (String × α) :=
  d.filter (fun p => p.1 ≠ k)

/-- `os.path.exists(get_model_path(version))`: the store has a file for the
version (healthy or corrupt — existence does not certify loadability). -/
def Store.entry (store : Store) (v : String) : StoreEntry :=
  match dictLookup store.dirs v with
  | some e => e
  | none => .absent

/-- True iff the backing store has a `model.pkl` file for the version. -/
def existsInStore (store : Store) (v : String) : Bool :=
  match store.entry v with
  | .absent => false
  | _ => true

/-- `get_available_versions` from `config.py`: list the directory, keep the
names whose `model.pkl` exists, sorted ascending. -/
def get_available_versions (store : Store) : List String :=
  (((store.dirs.filter (fun p => existsInStore store p.1)).map Prod.fst)).mergeSort
    (fun a b => a ≤ b)

/-- The mutable state of the process-global `ModelRegistry`: `_models`,
`_load_times` and `_active_version`. -/
structure RegistryState where
  models : List (String × Nat)
  loadTimes : List (String × Nat)
  activeVersion : String
deriving DecidableEq

/-- `version or default` on an `Optional[str]`: Python truthiness, so both
`None` and the empty string fall back to the default. -/
def pyOr (version : Option String) (default : String) : String :=
  match version with
  | none => default
  | some v => if v = "" then default else v

/-- The Python exception classes the prediction path can raise, carrying the
exception message; the transport layer dispatches on the class. -/
inductive PyError where
  | valueError (msg : String)
  | runtimeError (msg : String)
deriving DecidableEq

/-- The exception class alone, stripped of the message: the only part of an
error a caller can dispatch on without parsing message text. -/
inductive PyErrKind where
  | valueErrorKind
  | runtimeErrorKind
deriving DecidableEq

/-- Strip a `PyError` to its exception class. -/
def errKind : PyError → PyErrKind
  | .valueError _ => .valueErrorKind
  | .runtimeError _ => .runtimeErrorKind

/-- Errors that can escape `ModelRegistry.get_model`: `FileNotFoundError`
when the store has no file for the version, the `RuntimeError` that
`_load_model` wraps around a deserialization failure, and the (unreachable)
`KeyError` of reading `self._models[version]` after a load. -/
inductive LoadErr where
  | fileNotFound (version : String)
  | runtimeError (version : String)
  | keyError (version : String)
deriving DecidableEq

/-- `ModelRegistry._load_model`: check the file exists (else
`FileNotFoundError`), deserialize (a failure becomes `RuntimeError`), and
only on success insert the artifact into `_models` and the duration into
`_load_times`. -/
def loadModel (store : Store) (version : String) (s : RegistryState) :
    Except LoadErr RegistryState :=
  match store.entry version with
  | .absent => .error (.fileNotFound version)
  | .corrupt => .error (.runtimeError version)
  | .ok a =>
      .ok { s with
              models := dictInsert s.models version a,
              loadTimes := dictInsert s.loadTimes version (store.dur version) }

/-- `ModelRegistry.get_model`: resolve `version or self._active_version`,
load on a cache miss, then return `self._models[version]` together with the
registry state after the call. -/
def get_model (store : Store) (version : Option String) (s : RegistryState) :
    Except LoadErr (Nat × RegistryState) :=
  let v := pyOr version s.activeVersion
  match dictLookup s.models v with
  | some a => .ok (a, s)
  | none =>
      match loadModel store v s with
      | .error e => .error e
      | .ok s' =>
          match dictLookup s'.models v with
          | some a => .ok (a, s')
          | none => .error (.keyError v)

/-- `ModelRegistry.set_active_version`: refuse (returning `False`, state
untouched) when the store has no file for the version, otherwise commit the
switch and return `True`. -/
def set_active_version (store : Store) (version : String) (s : RegistryState) :
    Bool × RegistryState :=
  if existsInStore store version then
    (true, { s with activeVersion := version })
  else
    (false, s)

/-- `ModelRegistry.get_active_version`. -/
def get_active_version (s : RegistryState) : String :=
  s.activeVersion

/-- `ModelRegistry.is_version_loaded`. -/
def is_version_loaded (s : RegistryState) (version : String) : Bool :=
  (dictLookup s.models version).isSome

/-- `ModelRegistry.get_load_time`. -/
def get_load_time (s : RegistryState) (version : String) : Option Nat :=
  dictLookup s.loadTimes version

/-- `ModelRegistry.clear_cache`: `if version:` is a truthiness test, so both
`None` and the empty string clear the whole cache; a truthy version pops
just that key from `_models` and `_load_times`. -/
def clear_cache (version : Option String) (s : RegistryState) : RegistryState :=
  match version with
  | some v =>
      if v = "" then { s with models := [], loadTimes := [] }
      else { s with models := dictErase s.models v,
                    loadTimes := dictErase s.loadTimes v }
  | none => { s with models := [], loadTimes := [] }

/-- Request schema of `predict.py`: the feature sequence and an optional
version override. -/
structure PredictionRequest where
  features : List Value
  version : Option String
deriving DecidableEq

/-- The normalized prediction a response carries: either the unwrapped
scalar or the full sequence. -/
inductive Prediction where
  | scalar (x : Rat)
  | seq (xs : List Rat)
deriving DecidableEq

/-- Lines 47-50 of `predict.py`: `if len(prediction) == 1: prediction =
prediction[0]` — unwrap a singleton raw output to its element, leave any
other length untouched. -/
def normalizePrediction (raw : List Rat) : Prediction :=
  match raw with
  | [x] => .scalar x
  | l => .seq l

/-- Response schema of `predict.py`; `latency_ms` is wall-clock and is
abstracted to `0` in this embedding. -/
structure PredictionResponse where
  prediction : Prediction
  model_version : String
  latency_ms : Nat
deriving DecidableEq

/-- The per-entry test of `validate_features`: `isinstance(feature, (int,
float)) and not np.isnan(feature) and not np.isinf(feature)` — in this
embedding, exactly the finite numeric values. -/
def isFiniteNumber : Value → Bool
  | .finite _ => true
  | _ => false

/-- `validate_features`: reject an empty sequence (`if not features`), then
reject any entry that is not a finite number. -/
def validate_features (features : List Value) : Bool :=
  if features.isEmpty then false
  else features.all isFiniteNumber

/-- `make_prediction`: resolve the effective version with Python `or`,
fetch the model through the registry, run inference, normalize the output.
The `except FileNotFoundError` arm re-raises as
`ValueError("Model version ... not found")`; the `except Exception` arm
(catching the loader's `RuntimeError`, the unreachable `KeyError` and any
inference failure) re-raises as `RuntimeError("Prediction failed...")`.
Quote characters of the original f-strings are omitted from messages. -/
def make_prediction (store : Store) (req : PredictionRequest)
    (s : RegistryState) : Except PyError (PredictionResponse × RegistryState) :=
  let version := pyOr req.version s.activeVersion
  match get_model store (some version) s with
  | .error (.fileNotFound _) =>
      .error (.valueError ("Model version " ++ version ++ " not found"))
  | .error _ =>
      .error (.runtimeError "Prediction failed")
  | .ok (a, s') =>
      match store.infer a req.features with
      | .error _ => .error (.runtimeError "Prediction failed")
      | .ok raw =>
          .ok ({ prediction := normalizePrediction raw,
                 model_version := version,
                 latency_ms := 0 }, s')

/-- `predict_with_validation`: raise `ValueError("Invalid features
provided")` when validation fails, otherwise delegate to
`make_prediction`. -/
def predict_with_validation (store : Store) (req : PredictionRequest)
    (s : RegistryState) : Except PyError (PredictionResponse × RegistryState) :=
  if validate_features req.features then make_prediction store req s
  else .error (.valueError "Invalid features provided")

/-- The `/predict` route of `main.py`: `ValueError` becomes HTTP 400,
`RuntimeError` becomes HTTP 500, success is 200. -/
def predictStatus (store : Store) (req : PredictionRequest)
    (s : RegistryState) : Nat :=
  match predict_with_validation store req s with
  | .ok _ => 200
  | .error (.valueError _) => 400
  | .error (.runtimeError _) => 500

/-- Response schema of the admin version switch. -/
structure VersionResponse where
  success : Bool
  message : String
  active_version : String
deriving DecidableEq

/-- `admin.set_active_version`: first check membership in the catalog
(`get_available_versions`), then delegate to the registry switch; every
failure path reports the untouched current active version. -/
def adminSetActiveVersion (store : Store) (version : String)
    (s : RegistryState) : VersionResponse × RegistryState :=
  let available := get_available_versions store
  if version ∈ available then
    let r := set_active_version store version s
    if r.1 then
      ({ success := true,
         message := "Successfully switched to version " ++ version,
         active_version := version }, r.2)
    else
      ({ success := false,
         message := "Failed to switch to version " ++ version,
         active_version := r.2.activeVersion }, r.2)
  else
    ({ success := false,
       message := "Version " ++ version ++ " not found",
       active_version := s.activeVersion }, s)

/-- One registry-level operation, for stating which operations can change
the active version. -/
inductive RegOp where
  | getModelOp (version : Option String)
  | setActiveOp (version : String)
  | clearCacheOp (version : Option String)
  | predictOp (req : PredictionRequest)

/-- The registry state after one operation (a raised exception leaves the
state as the failing operation left it, i.e. unchanged). -/
def applyOp (store : Store) (op : RegOp) (s : RegistryState) : RegistryState :=
  match op with
  | .getModelOp version =>
      match get_model store version s with
      | .ok r => r.2
      | .error _ => s
  | .setActiveOp v => (set_active_version store v s).2
  | .clearCacheOp version => clear_cache version s
  | .predictOp req =>
      match predict_with_validation store req s with
      | .ok r => r.2
      | .error _ => s

/-- Apply a sequence of operations in order. -/
def applyOps (store : Store) (ops : List RegOp) (s : RegistryState) :
    RegistryState :=
  ops.foldl (fun st op => applyOp store op st) s

/-- Whether an operation is a version switch that will succeed against this
store. -/
def isSuccessfulSwitch (store : Store) (op : RegOp) : Bool :=
  match op with
  | .setActiveOp v => existsInStore store v
  | _ => false

/-!
Interleaving model of concurrent `get_model` calls for one version, under
the thread-pool scheduling model of the spec.  Each caller runs the body of
`ModelRegistry.get_model` / `_load_model` for the same version `v`, whose
artifact in the store is healthy (`ok a`).  The code takes no lock, so the
membership test `version not in self._models` and the load that follows it
are separate atomic steps between which other callers may be scheduled; the
load itself (deserialize, insert, bump the observable load counter) is
collapsed into one atomic step, which only restricts the schedules — any
duplicate load exhibited here exists in the finer real interleaving too. -/

/-- Program counter of one concurrent `get_model` caller: before the cache
membership test, after a miss but before the load, or returned. -/
inductive CPC where
  | start
  | loading
  | done
deriving DecidableEq

/-- One concurrent caller: where it is in `get_model` and, once done, the
artifact it returned. -/
structure Caller where
  pc : CPC
  result : Option Nat
deriving DecidableEq

/-- Shared state of the interleaving model: the `_models` dict, a counter
of loads performed (the spec's observable load counter), and the callers. -/
structure ConcState where
  models : List (String × Nat)
  loadCount : Nat
  callers : List Caller
deriving DecidableEq

/-- One scheduler step: some caller executes its next atomic action of
`get_model` for version `v` whose store artifact is `a`.  `hit`: the
membership test finds `v` cached and the caller returns the cached
artifact.  `miss`: the test finds `v` absent, so the caller proceeds to
load.  `load`: the caller deserializes, inserts into `_models`, bumps the
load counter and returns the artifact it loaded. -/
inductive ConcStep (v : String) (a : Nat) : ConcState → ConcState → Prop where
  | hit (st : ConcState) (i : Nat) (c : Caller) (art : Nat)
      (hc : st.callers[i]? = some c) (hpc : c.pc = .start)
      (hm : dictLookup st.models v = some art) :
      ConcStep v a st { st with callers := st.callers.set i ⟨.done, some art⟩ }
  | miss (st : ConcState) (i : Nat) (c : Caller)
      (hc : st.callers[i]? = some c) (hpc : c.pc = .start)
      (hm : dictLookup st.models v = none) :
      ConcStep v a st { st with callers := st.callers.set i ⟨.loading, c.result⟩ }
  | load (st : ConcState) (i : Nat) (c : Caller)
      (hc : st.callers[i]? = some c) (hpc : c.pc = .loading) :
      ConcStep v a st { models := dictInsert st.models v a,
                        loadCount := st.loadCount + 1,
                        callers := st.callers.set i ⟨.done, some a⟩ }

/-- Initial state: `v` uncached, no load yet, `n` callers about to run. -/
def concInit (n : Nat) : ConcState :=
  { models := [], loadCount := 0,
    callers := List.replicate n { pc := .start, result := none } }

/-- Inductive invariant of the interleaving model: the cache holds at most
the store's artifact for `v` and only after a load; the load counter never
exceeds the number of callers that have returned; every returned caller
holds the store's artifact and certifies at least one load happened. -/
def ConcInv (v : String) (a : Nat) (n : Nat) (st : ConcState) : Prop :=
  (∀ art, dictLookup st.models v = some art → art = a ∧ 1 ≤ st.loadCount) ∧
  st.loadCount ≤ st.callers.countP (fun c => decide (c.pc = CPC.done)) ∧
  (∀ c ∈ st.callers, c.pc = .done → c.result = some a ∧ 1 ≤ st.loadCount) ∧
  st.callers.length = n

theorem dictLookup_insert_self {α : Type} (d : List (String × α)) (k : String)
    (v : α) : dictLookup (dictInsert d k v) k = some v := by
  induction d with
  | nil => simp [dictInsert, dictLookup]
  | cons p rest ih =>
      obtain ⟨k', v'⟩ := p
      by_cases h : k' = k
      · simp [dictInsert, h, dictLookup]
      · simp [dictInsert, h, dictLookup, ih]

theorem dictErase_of_lookup_none {α : Type} (d : List (String × α)) (k : String)
    (h : dictLookup d k = none) : dictErase d k = d := by
  induction d with
  | nil => rfl
  | cons p rest ih =>
      obtain ⟨k', v'⟩ := p
      by_cases hk : k' = k
      · simp [dictLookup, hk] at h
      · have h' : dictLookup rest k = none := by simpa [dictLookup, hk] using h
        have h2 := ih h'
        show List.filter (fun p => decide (p.1 ≠ k)) ((k', v') :: rest)
          = (k', v') :: rest
        rw [List.filter_cons]
        have hcond : (decide ((k', v').1 ≠ k)) = true := by simp [hk]
        rw [hcond]
        simp only [if_true]
        exact congrArg (List.cons (k', v')) h2

theorem dictLookup_erase_self {α : Type} (d : List (String × α)) (k : String) :
    dictLookup (dictErase d k) k = none := by
  induction d with
  | nil => rfl
  | cons p rest ih =>
      obtain ⟨k', v'⟩ := p
      by_cases hk : k' = k
      · simpa [dictErase, List.filter, hk] using ih
      · simpa [dictErase, List.filter, hk, dictLookup] using ih

theorem countP_set_eq {α : Type} (l : List α) (i : Nat) (x c : α) (p : α → Bool)
    (h : l[i]? = some c) :
    (l.set i x).countP p + (if p c then 1 else 0)
      = l.countP p + (if p x then 1 else 0) := by
  induction l generalizing i with
  | nil => simp at h
  | cons hd tl ih =>
      cases i with
      | zero =>
          simp at h
          subst h
          simp [List.countP_cons]
          omega
      | succ j =>
          simp at h
          have := ih j h
          simp [List.set, List.countP_cons]
          omega

theorem concInv_step {v : String} {a n : Nat} {st st' : ConcState}
    (hstep : ConcStep v a st st') (hinv : ConcInv v a n st) :
    ConcInv v a n st' := by
  obtain ⟨hcache, hcount, hdone, hlen⟩ := hinv
  cases hstep with
  | hit i c art hc hpc hm =>
      obtain ⟨hart, hl1⟩ := hcache art hm
      subst hart
      refine ⟨hcache, ?_, ?_, ?_⟩
      · have hset := countP_set_eq st.callers i ⟨CPC.done, some art⟩ c
          (fun c => decide (c.pc = CPC.done)) hc
        simp [hpc] at hset
        dsimp only
        omega
      · intro c' hmem hd'
        rcases List.mem_or_eq_of_mem_set hmem with hmem' | heq
        · exact hdone c' hmem' hd'
        · subst heq
          exact ⟨rfl, hl1⟩
      · simpa using hlen
  | miss i c hc hpc hm =>
      refine ⟨hcache, ?_, ?_, ?_⟩
      · have hset := countP_set_eq st.callers i ⟨CPC.loading, c.result⟩ c
          (fun c => decide (c.pc = CPC.done)) hc
        simp [hpc] at hset
        dsimp only
        omega
      · intro c' hmem hd'
        rcases List.mem_or_eq_of_mem_set hmem with hmem' | heq
        · exact hdone c' hmem' hd'
        · subst heq
          simp at hd'
      · simpa using hlen
  | load i c hc hpc =>
      refine ⟨?_, ?_, ?_, ?_⟩
      · intro art hart
        dsimp only at hart
        rw [dictLookup_insert_self] at hart
        obtain rfl : a = art := by simpa using hart
        dsimp only
        omega
      · have hset := countP_set_eq st.callers i ⟨CPC.done, some a⟩ c
          (fun c => decide (c.pc = CPC.done)) hc
        simp [hpc] at hset
        dsimp only
        omega
      · intro c' hmem hd'
        rcases List.mem_or_eq_of_mem_set hmem with hmem' | heq
        · obtain ⟨hres, _⟩ := hdone c' hmem' hd'
          refine ⟨hres, ?_⟩
          dsimp only
          omega
        · subst heq
          refine ⟨rfl, ?_⟩
          dsimp only
          omega
      · simpa using hlen

theorem concInv_init (v : String) (a n : Nat) : ConcInv v a n (concInit n) := by
  refine ⟨?_, ?_, ?_, ?_⟩
  · intro art h
    simp [concInit, dictLookup] at h
  · simp [concInit]
  · intro c hmem hd
    have hco := List.eq_of_mem_replicate hmem
    subst hco
    simp at hd
  · simp [concInit]

theorem concInv_reach {v : String} {a n : Nat} {st : ConcState}
    (h : Relation.ReflTransGen (ConcStep v a) (concInit n) st) :
    ConcInv v a n st := by
  induction h with
  | refl => exact concInv_init v a n
  | tail _ hstep ih => exact concInv_step hstep ih

theorem mem_available_exists (store : Store) (v : String)
    (h : v ∈ get_available_versions store) : existsInStore store v = true := by
  unfold get_available_versions at h
  rw [List.mem_mergeSort] at h
  obtain ⟨p, hp, hpv⟩ := List.mem_map.mp h
  have := (List.mem_filter.mp hp).2
  rwa [hpv] at this

theorem loadModel_active (store : Store) (version : String) (s s' : RegistryState)
    (h : loadModel store version s = .ok s') :
    s'.activeVersion = s.activeVersion := by
  unfold loadModel at h
  split at h
  · exact absurd h (by simp)
  · exact absurd h (by simp)
  · injection h with h2
    rw [← h2]

theorem get_model_active (store : Store) (version : Option String)
    (s : RegistryState) (r : Nat × RegistryState)
    (h : get_model store version s = .ok r) :
    r.2.activeVersion = s.activeVersion := by
  unfold get_model at h
  dsimp only at h
  split at h
  · injection h with h2
    rw [← h2]
  · split at h
    · exact absurd h (by simp)
    · rename_i s' hload
      split at h
      · injection h with h2
        rw [← h2]
        exact loadModel_active store _ s s' hload
      · exact absurd h (by simp)

theorem make_prediction_active (store : Store) (req : PredictionRequest)
    (s : RegistryState) (r : PredictionResponse × RegistryState)
    (h : make_prediction store req s = .ok r) :
    r.2.activeVersion = s.activeVersion := by
  unfold make_prediction at h
  dsimp only at h
  split at h
  · exact absurd h (by simp)
  · exact absurd h (by simp)
  · rename_i a s' hget
    split at h
    · exact absurd h (by simp)
    · injection h with h2
      rw [← h2]
      exact get_model_active store _ s (a, s') hget

theorem predict_with_validation_active (store : Store) (req : PredictionRequest)
    (s : RegistryState) (r : PredictionResponse × RegistryState)
    (h : predict_with_validation store req s = .ok r) :
    r.2.activeVersion = s.activeVersion := by
  unfold predict_with_validation at h
  split at h
  · exact make_prediction_active store req s r h
  · exact absurd h (by simp)

theorem applyOp_preserves_active (store : Store) (op : RegOp) (s : RegistryState)
    (h : isSuccessfulSwitch store op = false) :
    (applyOp store op s).activeVersion = s.activeVersion := by
  cases op with
  | getModelOp version =>
      cases hg : get_model store version s with
      | ok r =>
          simp only [applyOp, hg]
          exact get_model_active store version s r hg
      | error e => simp only [applyOp, hg]
  | setActiveOp v =>
      have hv : existsInStore store v = false := by
        simpa [isSuccessfulSwitch] using h
      simp [applyOp, set_active_version, hv]
  | clearCacheOp version =>
      cases version with
      | none => rfl
      | some v =>
          by_cases hv' : v = "" <;> simp [applyOp, clear_cache, hv']
  | predictOp req =>
      cases hp : predict_with_validation store req s with
      | ok r =>
          simp only [applyOp, hp]
          exact predict_with_validation_active store req s r hp
      | error e => simp only [applyOp, hp]

theorem applyOps_preserves_active (store : Store) (ops : List RegOp)
    (s : RegistryState) (hops : ∀ op ∈ ops, isSuccessfulSwitch store op = false) :
    (applyOps store ops s).activeVersion = s.activeVersion := by
  induction ops generalizing s with
  | nil => rfl
  | cons op rest ih =>
      have h1 := applyOp_preserves_active store op s (hops op (by simp))
      have h2 := ih (applyOp store op s) (fun o ho => hops o (by simp [ho]))
      calc (applyOps store (op :: rest) s).activeVersion
          = (applyOps store rest (applyOp store op s)).activeVersion := rfl
        _ = (applyOp store op s).activeVersion := h2
        _ = s.activeVersion := h1

/-- A backing store with a single healthy version `v1` whose artifact
(id `0`) returns the raw output `[1]` on any input. -/
def store0 : Store :=
  { dirs := [("v1", .ok 0)],
    dur := fun _ => 0,
    infer := fun _ _ => .ok [1] }

/-- A store in which `v2` exists but its `model.pkl` fails to deserialize. -/
def storeCorrupt : Store :=
  { dirs := [("v1", .ok 0), ("v2", .corrupt)],
    dur := fun _ => 0,
    infer := fun _ _ => .ok [1] }

/-- A backing store where `v2` has become healthy (artifact id `3`), as
after an external fix: used to show failed loads self-heal. -/
def storeV2 : Store :=
  { dirs := [("v1", .ok 0), ("v2", .ok 3)],
    dur := fun _ => 0,
    infer := fun _ _ => .ok [1] }

/-- A fresh registry: nothing cached, active version `v1` (the configured
default). -/
def st0 : RegistryState :=
  { models := [], loadTimes := [], activeVersion := "v1" }

/-- A registry with `v1` cached (artifact id `0`, load duration recorded). -/
def st1 : RegistryState :=
  { models := [("v1", 0)], loadTimes := [("v1", 0)], activeVersion := "v1" }

/-- C2: for every version with no artifact in the backing store, the switch
fails (registry `set_active_version` returns `False` with the state
untouched, and the admin route reports `success = false`), and the active
version observed afterwards equals its pre-call value. -/
theorem C2_failedSwitch_changesNothing (store : Store) (v : String)
    (s : RegistryState) (h : existsInStore store v = false) :
    set_active_version store v s = (false, s) ∧
    get_active_version (set_active_version store v s).2 = get_active_version s ∧
    (adminSetActiveVersion store v s).1.success = false ∧
    (adminSetActiveVersion store v s).2 = s ∧
    (adminSetActiveVersion store v s).1.active_version = get_active_version s := by
  have hset : set_active_version store v s = (false, s) := by
    simp [set_active_version, h]
  have hnotmem : v ∉ get_available_versions store := by
    intro hm
    rw [mem_available_exists store v hm] at h
    exact absurd h (by simp)
  refine ⟨hset, by rw [hset], ?_, ?_, ?_⟩
  · simp [adminSetActiveVersion, hnotmem]
  · simp [adminSetActiveVersion, hnotmem]
  · simp [adminSetActiveVersion, hnotmem, get_active_version]

/-- Witness for C2 at a concrete input: `v9` has no artifact in `store0`. -/
theorem C2_failedSwitch_changesNothing_witness :
    set_active_version store0 "v9" st1 = (false, st1) ∧
    get_active_version (set_active_version store0 "v9" st1).2
      = get_active_version st1 ∧
    (adminSetActiveVersion store0 "v9" st1).1.success = false ∧
    (adminSetActiveVersion store0 "v9" st1).2 = st1 ∧
    (adminSetActiveVersion store0 "v9" st1).1.active_version
      = get_active_version st1 :=
  C2_failedSwitch_changesNothing store0 "v9" st1 (by decide)

/-- C4: for every version with an artifact in the backing store, a
successful `set_active_version` commits it, `get_active_version` then
returns it, and it stays the active version across any sequence of further
operations (model fetches, predictions, cache clears, failed switches) that
contains no successful switch. -/
theorem C4_activeVersionPersists (store : Store) (v : String)
    (s : RegistryState) (h : existsInStore store v = true) (ops : List RegOp)
    (hops : ∀ op ∈ ops, isSuccessfulSwitch store op = false) :
    (set_active_version store v s).1 = true ∧
    get_active_version (set_active_version store v s).2 = v ∧
    get_active_version (applyOps store ops (set_active_version store v s).2)
      = v := by
  have hset : set_active_version store v s
      = (true, { s with activeVersion := v }) := by
    simp [set_active_version, h]
  refine ⟨by rw [hset], by rw [hset]; rfl, ?_⟩
  rw [hset]
  exact applyOps_preserves_active store ops _ hops

/-- Witness for C4: switch to `v1` in `store0`, then run a fetch, a
prediction, an eviction and a failed switch — the active version is still
`v1`. -/
theorem C4_activeVersionPersists_witness :
    (set_active_version store0 "v1" st0).1 = true ∧
    get_active_version (set_active_version store0 "v1" st0).2 = "v1" ∧
    get_active_version
      (applyOps store0
        [RegOp.getModelOp none,
         RegOp.predictOp { features := [Value.finite 1], version := none },
         RegOp.clearCacheOp (some "v1"),
         RegOp.setActiveOp "v9"]
        (set_active_version store0 "v1" st0).2) = "v1" :=
  C4_activeVersionPersists store0 "v1" st0 (by decide) _ (by decide)

/-- C5: when the backing store cannot produce an artifact for an uncached
version (missing file or deserialization failure), `get_model` raises, the
registry state is untouched — no cache entry and no load duration exist for
the version — and a later `get_model` for the same version attempts the
load again from scratch: against a store that now has a healthy artifact it
succeeds and only then inserts the cache entry and duration. -/
theorem C5_failedLoadNotCached (store store2 : Store) (v : String)
    (s : RegistryState) (hv : v ≠ "")
    (hm : dictLookup s.models v = none)
    (ht : dictLookup s.loadTimes v = none)
    (hfail : store.entry v = .absent ∨ store.entry v = .corrupt) :
    (get_model store (some v) s
       = .error (.fileNotFound v) ∨
     get_model store (some v) s
       = .error (.runtimeError v)) ∧
    applyOp store (RegOp.getModelOp (some v)) s = s ∧
    is_version_loaded (applyOp store (RegOp.getModelOp (some v)) s) v = false ∧
    get_load_time (applyOp store (RegOp.getModelOp (some v)) s) v = none ∧
    (∀ a, store2.entry v = .ok a →
       get_model store2 (some v) (applyOp store (RegOp.getModelOp (some v)) s)
         = .ok (a, { s with
                       models := dictInsert s.models v a,
                       loadTimes := dictInsert s.loadTimes v (store2.dur v) })) := by
  have hres : pyOr (some v) s.activeVersion = v := by simp [pyOr, hv]
  have herr : (get_model store (some v) s = .error (.fileNotFound v) ∨
      get_model store (some v) s = .error (.runtimeError v)) := by
    rcases hfail with hab | hco
    · left
      simp [get_model, hres, hm, loadModel, hab]
    · right
      simp [get_model, hres, hm, loadModel, hco]
  have happ : applyOp store (RegOp.getModelOp (some v)) s = s := by
    rcases herr with he | he <;> simp [applyOp, he]
  refine ⟨herr, happ, ?_, ?_, ?_⟩
  · rw [happ]
    simp [is_version_loaded, hm]
  · rw [happ]
    simp [get_load_time, ht]
  · intro a ha
    rw [happ]
    simp [get_model, hres, hm, loadModel, ha, dictLookup_insert_self]

/-- Witness for C5: `v2` is absent from `store0` but healthy (artifact id
`3`) in `storeV2`; after the failed load nothing is cached, and the retry
against the healed store loads successfully. -/
theorem C5_failedLoadNotCached_witness :
    (get_model store0 (some "v2") st0 = .error (.fileNotFound "v2") ∨
     get_model store0 (some "v2") st0 = .error (.runtimeError "v2")) ∧
    applyOp store0 (RegOp.getModelOp (some "v2")) st0 = st0 ∧
    is_version_loaded (applyOp store0 (RegOp.getModelOp (some "v2")) st0) "v2"
      = false ∧
    get_load_time (applyOp store0 (RegOp.getModelOp (some "v2")) st0) "v2"
      = none ∧
    get_model storeV2 (some "v2")
        (applyOp store0 (RegOp.getModelOp (some "v2")) st0)
      = .ok (3, { models := [("v2", 3)], loadTimes := [("v2", 0)],
                  activeVersion := "v1" }) :=
  have h := C5_failedLoadNotCached store0 storeV2 "v2" st0 (by decide) rfl rfl
    (Or.inl rfl)
  ⟨h.1, h.2.1, h.2.2.1, h.2.2.2.1, h.2.2.2.2 3 rfl⟩

/-- The final state of a two-caller schedule on an uncached `v1`: both
callers returned the artifact, but the load counter reads 2. -/
def concTwoLoads : ConcState :=
  { models := [("v1", 7)], loadCount := 2,
    callers := [⟨.done, some 7⟩, ⟨.done, some 7⟩] }

/-- The final state of a one-caller run on an uncached `v1`: one load. -/
def concOneLoad : ConcState :=
  { models := [("v1", 7)], loadCount := 1, callers := [⟨.done, some 7⟩] }

/-- C1: counterexample. Two concurrent `get_model` callers for the uncached
version `v1` can both pass the `version not in self._models` test before
either loads — the schedule miss, miss, load, load is reachable — and the
completed execution has performed two loads, not exactly one. -/
theorem C1_counterexample :
    Relation.ReflTransGen (ConcStep "v1" 7) (concInit 2) concTwoLoads ∧
    (∀ c ∈ concTwoLoads.callers, c.pc = CPC.done) ∧
    concTwoLoads.loadCount = 2 := by
  refine ⟨?_, by decide, rfl⟩
  have s1 : ConcStep "v1" 7 (concInit 2)
      { models := [], loadCount := 0,
        callers := [⟨.loading, none⟩, ⟨.start, none⟩] } :=
    ConcStep.miss _ 0 ⟨.start, none⟩ (by decide) rfl rfl
  have s2 : ConcStep "v1" 7
      { models := [], loadCount := 0,
        callers := [⟨.loading, none⟩, ⟨.start, none⟩] }
      { models := [], loadCount := 0,
        callers := [⟨.loading, none⟩, ⟨.loading, none⟩] } :=
    ConcStep.miss _ 1 ⟨.start, none⟩ (by decide) rfl rfl
  have s3 : ConcStep "v1" 7
      { models := [], loadCount := 0,
        callers := [⟨.loading, none⟩, ⟨.loading, none⟩] }
      { models := [("v1", 7)], loadCount := 1,
        callers := [⟨.done, some 7⟩, ⟨.loading, none⟩] } :=
    ConcStep.load _ 0 ⟨.loading, none⟩ (by decide) rfl
  have s4 : ConcStep "v1" 7
      { models := [("v1", 7)], loadCount := 1,
        callers := [⟨.done, some 7⟩, ⟨.loading, none⟩] }
      concTwoLoads :=
    ConcStep.load _ 1 ⟨.loading, none⟩ (by decide) rfl
  exact Relation.ReflTransGen.tail
    (Relation.ReflTransGen.tail
      (Relation.ReflTransGen.tail (Relation.ReflTransGen.single s1) s2) s3) s4

/-- C1 (amended): in every complete interleaving of `n ≥ 1` concurrent
`get_model` callers for the same uncached, healthy version, between 1 and
`n` loads are performed — at least one, at most one per caller, but not
necessarily exactly one, since the unguarded check-then-load admits
duplicate loads — and every caller receives the same artifact, the one the
store holds. -/
theorem C1_concurrentLoads_amended (v : String) (a n : Nat) (st : ConcState)
    (hreach : Relation.ReflTransGen (ConcStep v a) (concInit n) st)
    (hn : 1 ≤ n) (hall : ∀ c ∈ st.callers, c.pc = CPC.done) :
    (1 ≤ st.loadCount ∧ st.loadCount ≤ n) ∧
    ∀ c ∈ st.callers, c.result = some a := by
  obtain ⟨hcache, hcount, hdone, hlen⟩ := concInv_reach hreach
  have h1 : st.callers.countP (fun c => decide (c.pc = CPC.done))
      ≤ st.callers.length := List.countP_le_length _
  have hle : st.loadCount ≤ n := by omega
  have hne : st.callers ≠ [] := by
    intro hnil
    rw [hnil] at hlen
    simp at hlen
    omega
  obtain ⟨c0, hc0⟩ := List.exists_mem_of_ne_nil st.callers hne
  obtain ⟨-, hl1⟩ := hdone c0 hc0 (hall c0 hc0)
  exact ⟨⟨hl1, hle⟩, fun c hc => (hdone c hc (hall c hc)).1⟩

/-- Witness for the amended C1 theorem: the single-caller schedule miss,
load reaches a completed state with exactly one load and the store's
artifact as result. -/
theorem C1_concurrentLoads_amended_witness :
    (1 ≤ concOneLoad.loadCount ∧ concOneLoad.loadCount ≤ 1) ∧
    ∀ c ∈ concOneLoad.callers, c.result = some 7 := by
  have s1 : ConcStep "v1" 7 (concInit 1)
      { models := [], loadCount := 0, callers := [⟨.loading, none⟩] } :=
    ConcStep.miss _ 0 ⟨.start, none⟩ (by decide) rfl rfl
  have s2 : ConcStep "v1" 7
      { models := [], loadCount := 0, callers := [⟨.loading, none⟩] }
      concOneLoad :=
    ConcStep.load _ 0 ⟨.loading, none⟩ (by decide) rfl
  exact C1_concurrentLoads_amended "v1" 7 1 concOneLoad
    (Relation.ReflTransGen.tail (Relation.ReflTransGen.single s1) s2)
    (by decide) (by decide)

/-- The exception class of a failed call, `none` for a successful one: all a
caller can dispatch on without parsing message strings. -/
def errKindOfResult {α : Type} : Except PyError α → Option PyErrKind
  | .error e => some (errKind e)
  | .ok _ => none

/-- C3: counterexample. Predicting with the uncached, absent version `v9`
and predicting with malformed (empty) features both fail with the same
error kind `ValueError` — mapped to the same HTTP 400 by the transport — so
a model-not-found failure is not distinguishable by kind from invalid
input. -/
theorem C3_counterexample :
    errKindOfResult
        (predict_with_validation store0
          { features := [Value.finite 1], version := some "v9" } st0)
      = errKindOfResult
        (predict_with_validation store0
          { features := [], version := none } st0) ∧
    errKindOfResult
        (predict_with_validation store0
          { features := [Value.finite 1], version := some "v9" } st0)
      = some PyErrKind.valueErrorKind ∧
    predictStatus store0
        { features := [Value.finite 1], version := some "v9" } st0 = 400 ∧
    predictStatus store0 { features := [], version := none } st0 = 400 := by
  refine ⟨?_, ?_, ?_, ?_⟩ <;> rfl

/-- C3 (amended): a prediction whose effective version is uncached and
absent from the store fails with `ValueError` ("model not found"), which
the transport maps to 400 exactly like an invalid-input failure — the two
are not distinguishable by error kind, only by message; any other load
failure (a corrupt artifact) propagates as `RuntimeError`, mapped to 500,
which is distinguishable from the `ValueError` kind. -/
theorem C3_errorKinds_amended (store : Store) (req : PredictionRequest)
    (s : RegistryState) (v : String)
    (hreq : req.version = some v) (hv : v ≠ "")
    (hvalid : validate_features req.features = true)
    (hnc : dictLookup s.models v = none) :
    (store.entry v = .absent →
       predict_with_validation store req s
         = .error (.valueError ("Model version " ++ v ++ " not found")) ∧
       predictStatus store req s = 400) ∧
    (store.entry v = .corrupt →
       predict_with_validation store req s
         = .error (.runtimeError "Prediction failed") ∧
       predictStatus store req s = 500) ∧
    PyErrKind.valueErrorKind ≠ PyErrKind.runtimeErrorKind := by
  have hres : pyOr (some v) s.activeVersion = v := by simp [pyOr, hv]
  refine ⟨?_, ?_, by decide⟩
  · intro hab
    have hp : predict_with_validation store req s
        = .error (.valueError ("Model version " ++ v ++ " not found")) := by
      simp [predict_with_validation, hvalid, make_prediction, hreq, hres,
        get_model, hnc, loadModel, hab]
    exact ⟨hp, by simp [predictStatus, hp]⟩
  · intro hco
    have hp : predict_with_validation store req s
        = .error (.runtimeError "Prediction failed") := by
      simp [predict_with_validation, hvalid, make_prediction, hreq, hres,
        get_model, hnc, loadModel, hco]
    exact ⟨hp, by simp [predictStatus, hp]⟩

/-- Witness for the amended C3 theorem: the absent version `v9` against
`store0` yields the 400 `ValueError`; the corrupt version `v2` of
`storeCorrupt` yields the 500 `RuntimeError`. -/
theorem C3_errorKinds_amended_witness :
    (predict_with_validation storeCorrupt
         { features := [Value.finite 1], version := some "v2" } st0
       = .error (.runtimeError "Prediction failed") ∧
     predictStatus storeCorrupt
         { features := [Value.finite 1], version := some "v2" } st0 = 500) ∧
    (predict_with_validation store0
         { features := [Value.finite 1], version := some "v9" } st0
       = .error (.valueError ("Model version " ++ "v9" ++ " not found")) ∧
     predictStatus store0
         { features := [Value.finite 1], version := some "v9" } st0 = 400) :=
  ⟨(C3_errorKinds_amended storeCorrupt
      { features := [Value.finite 1], version := some "v2" } st0 "v2"
      rfl (by decide) rfl rfl).2.1 rfl,
   (C3_errorKinds_amended store0
      { features := [Value.finite 1], version := some "v9" } st0 "v9"
      rfl (by decide) rfl rfl).1 rfl⟩

/-- C6: a prediction with empty features, or with any entry that is not a
finite number, fails with the `ValueError` of `validate_features` — for
every store and every registry state, so the cache and loader are never
consulted and the registry state is untouched; a non-empty list of finite
numeric values passes validation and the call proceeds to
`make_prediction`. -/
theorem C6_inputValidation (features : List Value) (ver : Option String)
    (store : Store) (s : RegistryState) :
    ((features = [] ∨ ∃ f ∈ features, isFiniteNumber f = false) →
       predict_with_validation store { features := features, version := ver } s
         = .error (.valueError "Invalid features provided") ∧
       applyOp store
         (RegOp.predictOp { features := features, version := ver }) s = s) ∧
    ((features ≠ [] ∧ ∀ f ∈ features, isFiniteNumber f = true) →
       validate_features features = true ∧
       predict_with_validation store { features := features, version := ver } s
         = make_prediction store { features := features, version := ver } s) := by
  constructor
  · intro hinv
    have hvf : validate_features features = false := by
      rcases hinv with rfl | ⟨f, hf, hbad⟩
      · rfl
      · have hall : features.all isFiniteNumber = false := by
          rw [List.all_eq_false]
          exact ⟨f, hf, by simp [hbad]⟩
        simp [validate_features, hall]
    have hp : predict_with_validation store
        { features := features, version := ver } s
        = .error (.valueError "Invalid features provided") := by
      simp [predict_with_validation, hvf]
    exact ⟨hp, by simp [applyOp, hp]⟩
  · rintro ⟨hne, hall⟩
    have h1 : features.isEmpty = false := by
      cases features with
      | nil => exact absurd rfl hne
      | cons a l => rfl
    have h2 : features.all isFiniteNumber = true := List.all_eq_true.mpr hall
    have hvt : validate_features features = true := by
      simp [validate_features, h1, h2]
    exact ⟨hvt, by simp [predict_with_validation, hvt]⟩

/-- Witness for C6: a NaN entry is rejected without touching the state;
`[1]` passes validation and reaches `make_prediction`. -/
theorem C6_inputValidation_witness :
    predict_with_validation store0
        { features := [Value.nan], version := none } st0
      = .error (.valueError "Invalid features provided") ∧
    applyOp store0
      (RegOp.predictOp { features := [Value.nan], version := none }) st0
      = st0 ∧
    validate_features [Value.finite 1] = true ∧
    predict_with_validation store0
        { features := [Value.finite 1], version := none } st0
      = make_prediction store0
        { features := [Value.finite 1], version := none } st0 :=
  have h1 := (C6_inputValidation [Value.nan] none store0 st0).1
    (Or.inr ⟨Value.nan, by decide, rfl⟩)
  have h2 := (C6_inputValidation [Value.finite 1] none store0 st0).2
    ⟨by decide, by decide⟩
  ⟨h1.1, h1.2, h2.1, h2.2⟩

/-- C7: counterexample. A prediction whose provided version override is the
empty string resolves to the active version `v1`, not to the provided
override — so the effective version does not always equal the override when
one is provided. -/
theorem C7_counterexample :
    make_prediction store0
        { features := [Value.finite 1], version := some "" } st0
      = .ok ({ prediction := .scalar 1, model_version := "v1",
               latency_ms := 0 },
             { models := [("v1", 0)], loadTimes := [("v1", 0)],
               activeVersion := "v1" }) ∧
    ("v1" : String) ≠ "" := by
  exact ⟨rfl, by decide⟩

/-- C7 (amended): every successful prediction reports as its effective
version `request.version or active` — the provided override whenever it is
non-empty, and the current active version when the override is `None` (or
the falsy empty string). -/
theorem C7_effectiveVersion_amended (store : Store) (req : PredictionRequest)
    (s : RegistryState) (r : PredictionResponse × RegistryState)
    (h : make_prediction store req s = .ok r) :
    r.1.model_version = pyOr req.version s.activeVersion ∧
    (∀ w, req.version = some w → w ≠ "" → r.1.model_version = w) ∧
    (req.version = none → r.1.model_version = get_active_version s) := by
  have hmv : r.1.model_version = pyOr req.version s.activeVersion := by
    unfold make_prediction at h
    dsimp only at h
    split at h
    · exact absurd h (by simp)
    · exact absurd h (by simp)
    · split at h
      · exact absurd h (by simp)
      · injection h with h2
        rw [← h2]
  refine ⟨hmv, ?_, ?_⟩
  · intro w hw hwne
    rw [hmv, hw]
    simp [pyOr, hwne]
  · intro hw
    rw [hmv, hw]
    rfl

/-- Witness for the amended C7 theorem: predicting against `storeV2` with
override `v2` (while `v1` is active) reports effective version `v2`. -/
theorem C7_effectiveVersion_amended_witness :
    ({ prediction := Prediction.scalar 1, model_version := "v2",
       latency_ms := 0 } : PredictionResponse).model_version
      = pyOr (some "v2") st0.activeVersion ∧
    ({ prediction := Prediction.scalar 1, model_version := "v2",
       latency_ms := 0 } : PredictionResponse).model_version = "v2" :=
  have h := C7_effectiveVersion_amended storeV2
    { features := [Value.finite 1], version := some "v2" } st0
    ({ prediction := .scalar 1, model_version := "v2", latency_ms := 0 },
     { models := [("v2", 3)], loadTimes := [("v2", 0)],
       activeVersion := "v1" })
    rfl
  ⟨h.1, h.2.1 "v2" rfl (by decide)⟩

/-- C8: the raw output normalization of a successful prediction — a
sequence of length exactly 1 is unwrapped to its single element, a sequence
of any other length is returned unchanged — and every successful
`make_prediction` reports exactly `normalizePrediction` of the raw
inference output. -/
theorem C8_outputNormalization (raw : List Rat) (x : Rat) (store : Store)
    (req : PredictionRequest) (s : RegistryState)
    (r : PredictionResponse × RegistryState) :
    (raw = [x] → normalizePrediction raw = .scalar x) ∧
    (raw.length ≠ 1 → normalizePrediction raw = .seq raw) ∧
    (make_prediction store req s = .ok r →
       ∀ a s', get_model store (some (pyOr req.version s.activeVersion)) s
           = .ok (a, s') →
         ∀ out, store.infer a req.features = .ok out →
           r.1.prediction = normalizePrediction out) := by
  refine ⟨?_, ?_, ?_⟩
  · rintro rfl
    rfl
  · intro hlen
    rcases raw with _ | ⟨a1, rest⟩
    · rfl
    · rcases rest with _ | ⟨a2, rest2⟩
      · exact absurd rfl hlen
      · rfl
  · intro h a s' hg out hout
    unfold make_prediction at h
    dsimp only at h
    rw [hg] at h
    dsimp only at h
    rw [hout] at h
    dsimp only at h
    injection h with h2
    rw [← h2]

/-- Witness for C8: `[5]` unwraps to the scalar `5`; `[2, 3]` is returned
whole. -/
theorem C8_outputNormalization_witness :
    normalizePrediction [(5 : Rat)] = .scalar 5 ∧
    normalizePrediction [(2 : Rat), 3] = .seq [2, 3] :=
  ⟨(C8_outputNormalization [(5 : Rat)] 5 store0
      { features := [], version := none } st0
      ({ prediction := .seq [], model_version := "", latency_ms := 0 },
       st0)).1 rfl,
   (C8_outputNormalization [(2 : Rat), 3] 0 store0
      { features := [], version := none } st0
      ({ prediction := .seq [], model_version := "", latency_ms := 0 },
       st0)).2.1 (by decide)⟩

/-- C9: counterexample. The empty string is absent from the cache of `st1`
(which holds only `v1`), yet `clear_cache` with the empty string is not a
no-op: `if version:` treats it as falsy and clears the whole cache. -/
theorem C9_counterexample :
    is_version_loaded st1 "" = false ∧
    get_load_time st1 "" = none ∧
    clear_cache (some "") st1 ≠ st1 := by
  exact ⟨rfl, rfl, by decide⟩

/-- C9 (amended): for every non-empty version absent from the cache,
`clear_cache` of that version is a no-op (no error, state unchanged) — in
particular evicting twice in a row is a no-op the second time, which in
fact holds for every version, the falsy empty string included. -/
theorem C9_evictIdempotent_amended (v : String) (s : RegistryState)
    (hv : v ≠ "") (hm : dictLookup s.models v = none)
    (ht : dictLookup s.loadTimes v = none) :
    clear_cache (some v) s = s ∧
    (∀ w s', clear_cache (some w) (clear_cache (some w) s')
       = clear_cache (some w) s') := by
  constructor
  · simp [clear_cache, hv, dictErase_of_lookup_none _ _ hm,
      dictErase_of_lookup_none _ _ ht]
  · intro w s'
    by_cases hw : w = ""
    · simp [clear_cache, hw]
    · simp [clear_cache, hw]
      exact ⟨dictErase_of_lookup_none _ _ (dictLookup_erase_self s'.models w),
        dictErase_of_lookup_none _ _ (dictLookup_erase_self s'.loadTimes w)⟩

/-- Witness for the amended C9 theorem: evicting the absent `v2` from `st1`
changes nothing, and a second eviction of the empty string after a first is
a no-op. -/
theorem C9_evictIdempotent_amended_witness :
    clear_cache (some "v2") st1 = st1 ∧
    clear_cache (some "") (clear_cache (some "") st1)
      = clear_cache (some "") st1 :=
  have h := C9_evictIdempotent_amended "v2" st1 (by decide) rfl rfl
  ⟨h.1, h.2 "" st1⟩

/-- C10: a provided version override equal to the empty string behaves
exactly as no override at all — `request.version or active` and
`version or self._active_version` test truthiness, not presence — so the
effective version resolves to the active version and the empty string never
selects a version of its own. -/
theorem C10_emptyStringOverride (store : Store) (s : RegistryState)
    (features : List Value) :
    pyOr (some "") (get_active_version s) = get_active_version s ∧
    get_model store (some "") s = get_model store none s ∧
    make_prediction store { features := features, version := some "" } s
      = make_prediction store { features := features, version := none } s ∧
    predict_with_validation store
        { features := features, version := some "" } s
      = predict_with_validation store
        { features := features, version := none } s := by
  exact ⟨rfl, rfl, rfl, rfl⟩
